import Mathlib

/-!
Shallow embedding of `src/cell-data/convert_bands.py`.

The script defines two pure functions that this development models:
`normalize_record_keys` (alias resolution on a record's keys) and
`normalize_bands` (tokenizing a free-form band string and classifying
each token by cellular generation).  Python strings are modelled as
`List Char` (ASCII behaviour for `strip`/`upper`/`\s`, which covers the
data the script handles), Python `dict`s as association lists in
insertion order, and a raised exception as `Except.error`.
-/

namespace ConvertBands

/-- ASCII model of the whitespace class used by `str.strip` and `\s`. -/
def isPySpace (c : Char) : Bool :=
  c = ' ' || c = '\t' || c = '\n' || c = '\r' || c = '\x0b' || c = '\x0c'

/-- Python `s.strip()`: drop leading and trailing whitespace. -/
def pyStrip (s : List Char) : List Char :=
  ((s.dropWhile isPySpace).reverse.dropWhile isPySpace).reverse

/-- Python `s.upper()` (ASCII model, matching `Char.toUpper`). -/
def pyUpper (s : List Char) : List Char :=
  s.map Char.toUpper

/-- Python substring test `needle in hay`. -/
def strIn (needle : List Char) : List Char → Bool
  | [] => needle.isPrefixOf []
  | c :: t => needle.isPrefixOf (c :: t) || strIn needle t

/-- The call `re.search(r"(\\d+)", p)` in the source.  The pattern text is
`(\\d+)`: an escaped (hence literal) backslash followed by one or more
literal letter-d characters.  This returns group 1 of the leftmost match,
taken greedily, or `none` when the pattern does not occur. -/
def searchBsD : List Char → Option (List Char)
  | [] => none
  | c :: rest =>
    if c = '\\' then
      if (rest.takeWhile (fun x => x = 'd')).isEmpty then searchBsD rest
      else some ('\\' :: rest.takeWhile (fun x => x = 'd'))
    else searchBsD rest

/-- Decimal value of a digit list. -/
def digitsToNat (ds : List Char) : Nat :=
  ds.foldl (fun acc c => 10 * acc + (c.toNat - 48)) 0

/-- Python `int(s)` on a string: optional surrounding whitespace, an
optional sign, then one or more decimal digits; anything else raises
`ValueError`, modelled as `none`. -/
def pyInt (s : List Char) : Option Int :=
  match pyStrip s with
  | '+' :: ds =>
    if !ds.isEmpty && ds.all Char.isDigit then some (digitsToNat ds) else none
  | '-' :: ds =>
    if !ds.isEmpty && ds.all Char.isDigit then some (-(digitsToNat ds : Int)) else none
  | ds =>
    if !ds.isEmpty && ds.all Char.isDigit then some (digitsToNat ds) else none

/-- The `LTE_FREQ_TO_BAND` table from the source. -/
def LTE_FREQ_TO_BAND : List (Int × String) :=
  [(700, "12"), (800, "20"), (850, "5"), (900, "8"), (1500, "32"),
   (1700, "4"), (1800, "3"), (1900, "2"), (2100, "1"), (2600, "7")]

/-- The `GSM_FREQ_TO_BAND` table from the source. -/
def GSM_FREQ_TO_BAND : List (Int × String) :=
  [(850, "5"), (900, "8"), (1800, "3"), (1900, "2")]

/-- Python `table.get(key, None)`. -/
def tblGet : List (Int × String) → Int → Option String
  | [], _ => none
  | (k, v) :: t, key => if k = key then some v else tblGet t key

/-- Cellular generation labels used by the classifier. -/
inductive Gen
  | g2
  | g3
  | g4
  | g5
deriving DecidableEq

/-- The one exception the loop body could raise (`int()` on a non-numeric
string). -/
inductive PyErr
  | valueError
deriving DecidableEq

/-- The `bands` accumulator dict, with one ordered list per generation. -/
structure Bands where
  g2 : List String
  g3 : List String
  g4 : List String
  g5 : List String
deriving DecidableEq

/-- The branch-selection structure of the per-token `if`/`elif` chain in
`normalize_bands`, in source order: 5G first (token contains "NR" or
starts with "N"), then LTE, then GSM, then UMTS/WCDMA/HSPA. -/
def classify (p : List Char) : Option Gen :=
  if strIn ("NR".data) p || List.isPrefixOf ("N".data) p then some Gen.g5
  else if strIn ("LTE".data) p then some Gen.g4
  else if strIn ("GSM".data) p then some Gen.g2
  else if strIn ("UMTS".data) p || strIn ("WCDMA".data) p || strIn ("HSPA".data) p
  then some Gen.g3
  else none

/-- The loop body of `normalize_bands` for one nonempty processed token
`p` (already stripped and uppercased): dispatch on the generation rules,
run the digit search, and append at most one identifier.  The table
lookup result feeds a Python truthiness test (`if band:`), so an empty
string in a table would also take the fallback branch. -/
def processToken (p : List Char) (st : Bands) : Except PyErr Bands :=
  match classify p with
  | some Gen.g5 =>
    match searchBsD p with
    | some g => Except.ok { st with g5 := st.g5 ++ [String.mk ('n' :: g)] }
    | none => Except.ok st
  | some Gen.g4 =>
    match searchBsD p with
    | some g =>
      match pyInt g with
      | none => Except.error PyErr.valueError
      | some mhz =>
        match tblGet LTE_FREQ_TO_BAND mhz with
        | some band =>
          if band = "" then Except.ok { st with g4 := st.g4 ++ ["B" ++ toString mhz] }
          else Except.ok { st with g4 := st.g4 ++ ["B" ++ band] }
        | none => Except.ok { st with g4 := st.g4 ++ ["B" ++ toString mhz] }
    | none => Except.ok st
  | some Gen.g2 =>
    match searchBsD p with
    | some g =>
      match pyInt g with
      | none => Except.error PyErr.valueError
      | some mhz =>
        match tblGet GSM_FREQ_TO_BAND mhz with
        | some band =>
          if band = "" then Except.ok { st with g2 := st.g2 ++ [toString mhz] }
          else Except.ok { st with g2 := st.g2 ++ [band] }
        | none => Except.ok { st with g2 := st.g2 ++ [toString mhz] }
    | none => Except.ok st
  | some Gen.g3 =>
    match searchBsD p with
    | some g => Except.ok { st with g3 := st.g3 ++ [String.mk g] }
    | none => Except.ok st
  | none => Except.ok st

/-- Length of the separator matched at the head of `s` by the split
pattern `/|,|\+|\s+and\s+`.  Alternatives are tried left to right; the
`\s+` pieces are greedy, and no backtracking can help since whitespace is
disjoint from the letters of "and". -/
def matchSep (s : List Char) : Option Nat :=
  match s with
  | '/' :: _ => some 1
  | ',' :: _ => some 1
  | '+' :: _ => some 1
  | _ =>
    if (s.takeWhile isPySpace).isEmpty then none
    else
      match s.drop (s.takeWhile isPySpace).length with
      | 'a' :: 'n' :: 'd' :: rest2 =>
        if (rest2.takeWhile isPySpace).isEmpty then none
        else some ((s.takeWhile isPySpace).length + 3 + (rest2.takeWhile isPySpace).length)
      | _ => none

/-- Worker for `splitBands`.  The fuel argument only serves termination:
every separator consumes at least one character, so fuel equal to the
string length is never exhausted. -/
def splitGo : Nat → List Char → List Char → List (List Char)
  | _, [], cur => [cur.reverse]
  | 0, s, cur => [cur.reverse ++ s]
  | fuel + 1, c :: rest, cur =>
    match matchSep (c :: rest) with
    | some n => cur.reverse :: splitGo fuel ((c :: rest).drop n) []
    | none => splitGo fuel rest (c :: cur)

/-- The call `re.split(r"/|,|\+|\s+and\s+", band_str)` in the source. -/
def splitBands (s : List Char) : List (List Char) :=
  splitGo s.length s []

/-- The `for p in parts` loop of `normalize_bands`: strip and uppercase
each part, skip empty tokens, and run the classifier body, propagating
any raised exception. -/
def foldParts : List (List Char) → Bands → Except PyErr Bands
  | [], st => Except.ok st
  | raw :: rest, st =>
    if (pyUpper (pyStrip raw)).isEmpty then foldParts rest st
    else
      match processToken (pyUpper (pyStrip raw)) st with
      | Except.error e => Except.error e
      | Except.ok st' => foldParts rest st'

/-- The final comprehension of `normalize_bands`: keep only generations
with a nonempty list, in the dict's insertion order 2G, 3G, 4G, 5G. -/
def stripEmpty (b : Bands) : List (String × List String) :=
  ([("2G", b.g2), ("3G", b.g3), ("4G", b.g4), ("5G", b.g5)]).filter
    (fun kv => !kv.2.isEmpty)

/-- The function `normalize_bands(band_str)`.  Python `None` is modelled
as `none`; the guard `if not band_str` covers both `None` and the empty
string. -/
def normalize_bands (band_str : Option String) :
    Except PyErr (List (String × List String)) :=
  match band_str with
  | none => Except.ok []
  | some s =>
    if s.data.isEmpty then Except.ok []
    else
      match foldParts (splitBands s.data) ⟨[], [], [], []⟩ with
      | Except.error e => Except.error e
      | Except.ok st => Except.ok (stripEmpty st)

/-- Python `dict` lookup on an association list in insertion order. -/
def dGet {V : Type} : List (String × V) → String → Option V
  | [], _ => none
  | (k, v) :: t, key => if k = key then some v else dGet t key

/-- Python `d[key] = v`: update in place when the key exists, otherwise
append at the end. -/
def dSet {V : Type} : List (String × V) → String → V → List (String × V)
  | [], key, v => [(key, v)]
  | (k, w) :: t, key, v =>
    if k = key then (k, v) :: t else (k, w) :: dSet t key v

/-- The removal effect of Python `d.pop(key)`. -/
def dDel {V : Type} : List (String × V) → String → List (String × V)
  | [], _ => []
  | (k, w) :: t, key => if k = key then t else (k, w) :: dDel t key

/-- The constant `BOM_MCC_KEY` from the source: the key "MCC" prefixed
with the byte order mark U+FEFF. -/
def BOM_MCC_KEY : String := "\uFEFF" ++ "MCC"

/-- First block of `normalize_record_keys`: when the BOM-prefixed MCC key
is present and plain "MCC" is absent, pop the BOM key and store its value
under "MCC". -/
def fixMcc {V : Type} (out : List (String × V)) : List (String × V) :=
  match dGet out BOM_MCC_KEY, dGet out "MCC" with
  | some v, none => dSet (dDel out BOM_MCC_KEY) "MCC" v
  | _, _ => out

/-- Second block of `normalize_record_keys`: mirror "Bands" into "bands"
when only the capitalized key exists, and vice versa. -/
def fixBands {V : Type} (out : List (String × V)) : List (String × V) :=
  match dGet out "Bands", dGet out "bands" with
  | some v, none => dSet out "bands" v
  | none, some v => dSet out "Bands" v
  | _, _ => out

/-- The function `normalize_record_keys(rec)`: copy the record, then the
two alias-fixing blocks in source order. -/
def normalize_record_keys {V : Type} (rec : List (String × V)) :
    List (String × V) :=
  fixBands (fixMcc rec)


/-- No character of an uppercased string is a lowercase letter d. -/
theorem toUpper_ne_d (c : Char) : Char.toUpper c ≠ 'd' := by
  unfold Char.toUpper
  show (if c.toNat ≥ 97 ∧ c.toNat ≤ 122 then Char.ofNat (c.toNat - 32) else c) ≠ 'd'
  split
  case isTrue h =>
    intro hc
    have hv : (Char.toNat c - 32).isValidChar := Or.inl (by omega)
    have ht : (Char.ofNat (Char.toNat c - 32)).toNat = Char.toNat c - 32 := by
      unfold Char.ofNat
      rw [dif_pos hv]
      rfl
    rw [hc] at ht
    have hd : Char.toNat 'd' = 100 := by decide
    omega
  case isFalse h =>
    intro hc
    rw [hc] at h
    exact h (by decide)

theorem mem_pyUpper_ne_d {s : List Char} {c : Char} (h : c ∈ pyUpper s) : c ≠ 'd' := by
  obtain ⟨a, _, rfl⟩ := List.mem_map.mp h
  exact toUpper_ne_d a

/-- The digit-search pattern needs a letter d; on a string without one it
never matches. -/
theorem searchBsD_eq_none {s : List Char} (h : ∀ c ∈ s, c ≠ 'd') :
    searchBsD s = none := by
  induction s with
  | nil => rfl
  | cons c rest ih =>
    have hrest : ∀ x ∈ rest, x ≠ 'd' := fun x hx => h x (List.mem_cons_of_mem c hx)
    have htw : rest.takeWhile (fun x => x = 'd') = [] := by
      cases rest with
      | nil => rfl
      | cons b t =>
        have hb : b ≠ 'd' := hrest b (List.mem_cons_self b t)
        simp [List.takeWhile_cons, hb]
    simp only [searchBsD]
    split
    · rw [htw]
      simp [ih hrest]
    · exact ih hrest

/-- The search never matches an uppercased token. -/
theorem searchBsD_pyUpper (s : List Char) : searchBsD (pyUpper s) = none :=
  searchBsD_eq_none (fun _ hc => mem_pyUpper_ne_d hc)

/-- A token with no digit-pattern match contributes nothing and raises
nothing. -/
theorem processToken_no_match {p : List Char} (st : Bands)
    (h : searchBsD p = none) : processToken p st = Except.ok st := by
  unfold processToken
  rw [h]
  cases hcl : classify p with
  | none => rfl
  | some g => cases g <;> rfl

/-- The whole token loop leaves the accumulator unchanged: every processed
token is uppercased, so the digit pattern never matches. -/
theorem foldParts_ok (parts : List (List Char)) (st : Bands) :
    foldParts parts st = Except.ok st := by
  induction parts generalizing st with
  | nil => rfl
  | cons raw rest ih =>
    simp only [foldParts]
    split
    · exact ih st
    · rw [processToken_no_match st (searchBsD_pyUpper (pyStrip raw))]
      exact ih st

/-- `normalize_bands` returns the empty mapping on every input. -/
theorem normalize_bands_eq_ok_nil (o : Option String) :
    normalize_bands o = Except.ok [] := by
  cases o with
  | none => rfl
  | some s =>
    simp only [normalize_bands]
    split
    · rfl
    · rw [foldParts_ok]
      rfl


/-- A token containing "LTE" is never dispatched to the GSM branch. -/
theorem classify_ne_g2 {p : List Char} (hl : strIn ("LTE".data) p = true) :
    classify p ≠ some Gen.g2 := by
  unfold classify
  split <;> simp_all

/-- If a token is not dispatched to the GSM branch, the 2G list is left
unchanged by its processing. -/
theorem processToken_g2_preserved {p : List Char} {st st' : Bands}
    (h : processToken p st = Except.ok st') (hne : classify p ≠ some Gen.g2) :
    st'.g2 = st.g2 := by
  unfold processToken at h
  cases hcl : classify p with
  | none => simp only [hcl] at h; cases h; rfl
  | some g =>
    cases g
    case g2 => exact absurd hcl hne
    case g5 =>
      simp only [hcl] at h
      cases hs : searchBsD p
      · simp only [hs] at h; cases h; rfl
      · simp only [hs] at h; cases h; rfl
    case g3 =>
      simp only [hcl] at h
      cases hs : searchBsD p
      · simp only [hs] at h; cases h; rfl
      · simp only [hs] at h; cases h; rfl
    case g4 =>
      simp only [hcl] at h
      cases hs : searchBsD p with
      | none => simp only [hs] at h; cases h; rfl
      | some g =>
        simp only [hs] at h
        cases hi : pyInt g with
        | none => simp only [hi] at h; simp at h
        | some mhz =>
          simp only [hi] at h
          cases ht : tblGet LTE_FREQ_TO_BAND mhz with
          | none => simp only [ht] at h; cases h; rfl
          | some band =>
            simp only [ht] at h
            by_cases hb : band = ""
            · rw [if_pos hb] at h; cases h; rfl
            · rw [if_neg hb] at h; cases h; rfl

theorem dGet_dSet_self {V : Type} (d : List (String × V)) (k : String) (v : V) :
    dGet (dSet d k v) k = some v := by
  induction d with
  | nil => simp [dSet, dGet]
  | cons kv t ih =>
    obtain ⟨k1, w⟩ := kv
    simp only [dSet]
    split
    case isTrue h => simp [dGet, h]
    case isFalse h => simp [dGet, h, ih]

theorem dGet_dSet_ne {V : Type} (d : List (String × V)) {k k' : String} (v : V)
    (hne : k' ≠ k) : dGet (dSet d k v) k' = dGet d k' := by
  induction d with
  | nil => simp [dSet, dGet, Ne.symm hne]
  | cons kv t ih =>
    obtain ⟨k1, w⟩ := kv
    simp only [dSet]
    split
    case isTrue h => simp [dGet, h, Ne.symm hne]
    case isFalse h =>
      simp only [dGet]
      split
      · rfl
      · exact ih

theorem dGet_dDel_ne {V : Type} (d : List (String × V)) {k k' : String}
    (hne : k' ≠ k) : dGet (dDel d k) k' = dGet d k' := by
  induction d with
  | nil => rfl
  | cons kv t ih =>
    obtain ⟨k1, w⟩ := kv
    simp only [dDel]
    split
    case isTrue h => simp [dGet, h, Ne.symm hne]
    case isFalse h =>
      simp only [dGet]
      split
      · rfl
      · exact ih

/-- Keys other than the BOM key and "MCC" are untouched by the first
alias-fixing block. -/
theorem dGet_fixMcc_other {V : Type} (out : List (String × V)) {k : String}
    (h1 : k ≠ BOM_MCC_KEY) (h2 : k ≠ "MCC") :
    dGet (fixMcc out) k = dGet out k := by
  unfold fixMcc
  split
  · rw [dGet_dSet_ne _ _ h2, dGet_dDel_ne _ h1]
  · rfl

/-- Keys other than "Bands" and "bands" are untouched by the second
alias-fixing block. -/
theorem dGet_fixBands_other {V : Type} (out : List (String × V)) {k : String}
    (h1 : k ≠ "Bands") (h2 : k ≠ "bands") :
    dGet (fixBands out) k = dGet out k := by
  unfold fixBands
  split
  · rw [dGet_dSet_ne _ _ h2]
  · rw [dGet_dSet_ne _ _ h1]
  · rfl


/-- Claim C1 (spec expectation vs. code): the spec expects the mixed
input "GSM900/GSM1800/UMTS2100/LTE2600" to produce 2G, 3G and 4G
entries, but the mistyped digit pattern `(\\d+)` never matches a digit,
so the code returns the empty mapping at exactly this input. -/
theorem claim_C1_code_result :
    normalize_bands (some "GSM900/GSM1800/UMTS2100/LTE2600") = Except.ok [] := by
  rfl

/-- Claim C2 (spec expectation vs. code): the spec expects "LTE1234" to
take the fallback path and yield a 4G entry "B1234", but the code finds
no digit run and returns the empty mapping. -/
theorem claim_C2_code_result :
    normalize_bands (some "LTE1234") = Except.ok [] := by
  rfl

/-- Claim C3 (spec expectation vs. code): the spec expects
"LTE1800/LTE2600" to yield the 4G list B3, B7 in token order, but the
code returns the empty mapping. -/
theorem claim_C3_code_result :
    normalize_bands (some "LTE1800/LTE2600") = Except.ok [] := by
  rfl

/-- Claim C4: on every input string containing no backslash character,
`normalize_bands` returns the empty mapping, because the digit-extraction
pattern only matches a literal backslash followed by letter-d
characters. -/
theorem claim_C4_no_backslash (s : String) (h : '\\' ∉ s.data) :
    normalize_bands (some s) = Except.ok [] :=
  normalize_bands_eq_ok_nil (some s)

/-- Witness for claim C4 at the concrete input "LTE1800". -/
theorem claim_C4_witness :
    '\\' ∉ ("LTE1800" : String).data ∧
      normalize_bands (some "LTE1800") = Except.ok [] :=
  ⟨by decide, claim_C4_no_backslash "LTE1800" (by decide)⟩

/-- Claim C5: `normalize_bands` terminates normally on every input and
never raises; a token that matches a generation rule but has no
digit-pattern match contributes nothing instead of aborting. -/
theorem claim_C5_never_raises :
    (∀ o : Option String, ∃ m, normalize_bands o = Except.ok m) ∧
      (∀ (p : List Char) (st : Bands), searchBsD p = none →
        processToken p st = Except.ok st) :=
  ⟨fun o => ⟨[], normalize_bands_eq_ok_nil o⟩,
   fun _ st h => processToken_no_match st h⟩

/-- Witness for claim C5: the token "LTE" matches the 4G rule, has no
digit-pattern match, and contributes nothing. -/
theorem claim_C5_witness :
    processToken ("LTE".data) ⟨[], [], [], []⟩ = Except.ok ⟨[], [], [], []⟩ :=
  claim_C5_never_raises.2 ("LTE".data) ⟨[], [], [], []⟩ (by rfl)

/-- Every entry of the final comprehension has one of the four fixed keys
and a nonempty list as value. -/
theorem stripEmpty_mem {b : Bands} {kv : String × List String}
    (hkv : kv ∈ stripEmpty b) :
    kv.1 ∈ (["2G", "3G", "4G", "5G"] : List String) ∧ kv.2 ≠ [] := by
  obtain ⟨hmem, hpred⟩ := List.mem_filter.mp hkv
  constructor
  · simp only [List.mem_cons, List.not_mem_nil, or_false] at hmem
    rcases hmem with h | h | h | h <;> rw [h] <;> simp
  · intro hnil
    rw [hnil] at hpred
    simp at hpred

/-- Claim C6: every key of the returned mapping is one of 2G, 3G, 4G, 5G
and maps to a nonempty list: a generation appears only when something was
appended to it, and empty lists are filtered away by the final
comprehension. -/
theorem claim_C6_keys_nonempty :
    (∀ (o : Option String) (m : List (String × List String)),
      normalize_bands o = Except.ok m →
      ∀ kv ∈ m, kv.1 ∈ (["2G", "3G", "4G", "5G"] : List String) ∧ kv.2 ≠ []) ∧
    (∀ (b : Bands), ∀ kv ∈ stripEmpty b,
      kv.1 ∈ (["2G", "3G", "4G", "5G"] : List String) ∧ kv.2 ≠ []) := by
  constructor
  · intro o m h kv hkv
    have he := normalize_bands_eq_ok_nil o
    rw [he] at h
    cases h
    exact absurd hkv (List.not_mem_nil kv)
  · intro b kv hkv
    exact stripEmpty_mem hkv

/-- Witness for claim C6 on a concrete accumulator with one 2G entry. -/
theorem claim_C6_witness :
    ("2G", (["8"] : List String)).1 ∈ (["2G", "3G", "4G", "5G"] : List String) ∧
      ("2G", (["8"] : List String)).2 ≠ [] :=
  claim_C6_keys_nonempty.2 (Bands.mk ["8"] [] [] []) ("2G", ["8"]) (by decide)

/-- Counterexample for claim C7: a record holding only the capitalized
key "Bands" is normalized to a record holding two distinct keys for the
bands field, so the output does not have exactly one key per semantic
field. -/
theorem claim_C7_counterexample :
    normalize_record_keys [("Bands", "GSM900")] =
      [("Bands", "GSM900"), ("bands", "GSM900")] ∧
    ("Bands" : String) ≠ "bands" :=
  ⟨by rfl, by decide⟩

/-- Claim C7 as amended: the canonical keys are exposed, but duplicate
representations of the bands field coexist by design (a record with only
"Bands" ends up with both "Bands" and "bands", holding the same value);
when both an aliased and a canonical key are present, the canonical
key's pre-existing value is kept and the alias value is not applied to
it. -/
theorem claim_C7_amended {V : Type} (rec : List (String × V)) :
    (∀ v w, dGet rec BOM_MCC_KEY = some v → dGet rec "MCC" = some w →
      dGet (normalize_record_keys rec) "MCC" = some w) ∧
    (∀ v w, dGet rec "Bands" = some v → dGet rec "bands" = some w →
      dGet (normalize_record_keys rec) "Bands" = some v ∧
        dGet (normalize_record_keys rec) "bands" = some w) ∧
    (∀ v, dGet rec "Bands" = some v → dGet rec "bands" = none →
      dGet (normalize_record_keys rec) "Bands" = some v ∧
        dGet (normalize_record_keys rec) "bands" = some v) := by
  refine ⟨?_, ?_, ?_⟩
  · intro v w hb hm
    have h1 : fixMcc rec = rec := by
      unfold fixMcc
      rw [hb, hm]
    unfold normalize_record_keys
    rw [h1, dGet_fixBands_other rec (by decide) (by decide)]
    exact hm
  · intro v w hB hb
    have h1B : dGet (fixMcc rec) "Bands" = some v := by
      rw [dGet_fixMcc_other rec (by decide) (by decide)]
      exact hB
    have h1b : dGet (fixMcc rec) "bands" = some w := by
      rw [dGet_fixMcc_other rec (by decide) (by decide)]
      exact hb
    have h2 : fixBands (fixMcc rec) = fixMcc rec := by
      unfold fixBands
      rw [h1B, h1b]
    unfold normalize_record_keys
    rw [h2, h1B, h1b]
    exact ⟨rfl, rfl⟩
  · intro v hB hb
    have h1B : dGet (fixMcc rec) "Bands" = some v := by
      rw [dGet_fixMcc_other rec (by decide) (by decide)]
      exact hB
    have h1b : dGet (fixMcc rec) "bands" = none := by
      rw [dGet_fixMcc_other rec (by decide) (by decide)]
      exact hb
    have h2 : fixBands (fixMcc rec) = dSet (fixMcc rec) "bands" v := by
      unfold fixBands
      rw [h1B, h1b]
    unfold normalize_record_keys
    rw [h2]
    constructor
    · rw [dGet_dSet_ne _ _ (by decide)]
      exact h1B
    · exact dGet_dSet_self _ _ _

/-- Witness for the amended claim C7 on concrete records. -/
theorem claim_C7_witness :
    dGet (normalize_record_keys
      [(BOM_MCC_KEY, "302"), ("MCC", "310"), ("Bands", "X"), ("bands", "Y")])
      "MCC" = some "310" ∧
    dGet (normalize_record_keys
      [(BOM_MCC_KEY, "302"), ("MCC", "310"), ("Bands", "X"), ("bands", "Y")])
      "Bands" = some "X" ∧
    dGet (normalize_record_keys
      [(BOM_MCC_KEY, "302"), ("MCC", "310"), ("Bands", "X"), ("bands", "Y")])
      "bands" = some "Y" ∧
    dGet (normalize_record_keys [("Bands", "X")]) "bands" = some "X" := by
  refine ⟨?_, ?_, ?_, ?_⟩
  · exact (claim_C7_amended _).1 "302" "310" (by decide) (by decide)
  · exact ((claim_C7_amended _).2.1 "X" "Y" (by decide) (by decide)).1
  · exact ((claim_C7_amended _).2.1 "X" "Y" (by decide) (by decide)).2
  · exact ((claim_C7_amended _).2.2 "X" (by decide) (by decide)).2

/-- Claim C8: a record with the BOM-prefixed MCC key and no plain "MCC"
exposes that value under "MCC" after normalization, and a record with
"Bands" and no "bands" exposes the identical value under "bands". -/
theorem claim_C8_alias_exposed {V : Type} (rec : List (String × V)) :
    (∀ v, dGet rec BOM_MCC_KEY = some v → dGet rec "MCC" = none →
      dGet (normalize_record_keys rec) "MCC" = some v) ∧
    (∀ v, dGet rec "Bands" = some v → dGet rec "bands" = none →
      dGet (normalize_record_keys rec) "bands" = some v) := by
  constructor
  · intro v hb hm
    have h1 : fixMcc rec = dSet (dDel rec BOM_MCC_KEY) "MCC" v := by
      unfold fixMcc
      rw [hb, hm]
    unfold normalize_record_keys
    rw [h1, dGet_fixBands_other _ (by decide) (by decide)]
    exact dGet_dSet_self _ _ _
  · intro v hB hb
    have h1B : dGet (fixMcc rec) "Bands" = some v := by
      rw [dGet_fixMcc_other rec (by decide) (by decide)]
      exact hB
    have h1b : dGet (fixMcc rec) "bands" = none := by
      rw [dGet_fixMcc_other rec (by decide) (by decide)]
      exact hb
    have h2 : fixBands (fixMcc rec) = dSet (fixMcc rec) "bands" v := by
      unfold fixBands
      rw [h1B, h1b]
    unfold normalize_record_keys
    rw [h2]
    exact dGet_dSet_self _ _ _

/-- Witness for claim C8 on a concrete record. -/
theorem claim_C8_witness :
    dGet (normalize_record_keys [(BOM_MCC_KEY, "302"), ("Bands", "GSM900")])
      "MCC" = some "302" ∧
    dGet (normalize_record_keys [(BOM_MCC_KEY, "302"), ("Bands", "GSM900")])
      "bands" = some "GSM900" :=
  ⟨(claim_C8_alias_exposed _).1 "302" (by decide) (by decide),
   (claim_C8_alias_exposed _).2 "GSM900" (by decide) (by decide)⟩

/-- Claim C9: the empty string and the None-equivalent input both yield
the empty mapping, not an error. -/
theorem claim_C9_empty_inputs :
    normalize_bands (some "") = Except.ok [] ∧
      normalize_bands none = Except.ok [] :=
  ⟨rfl, rfl⟩

/-- Counterexample for claim C10: the token "NRLTEGSM" contains both
"LTE" and "GSM" yet is captured by the 5G rule, which is checked before
the LTE rule, so it is not treated under the 4G rule. -/
theorem claim_C10_counterexample :
    strIn ("LTE".data) ("NRLTEGSM".data) = true ∧
    strIn ("GSM".data) ("NRLTEGSM".data) = true ∧
    classify ("NRLTEGSM".data) ≠ some Gen.g4 :=
  ⟨by decide, by decide, by decide⟩

/-- Claim C10 as amended: a token containing both "LTE" and "GSM" is
treated under the 4G rule provided the 5G rule does not capture it first
(no "NR" substring and not starting with "N"); in all cases such a token
never contributes an identifier to the 2G list. -/
theorem claim_C10_amended (p : List Char)
    (hl : strIn ("LTE".data) p = true) (hg : strIn ("GSM".data) p = true) :
    (strIn ("NR".data) p = false → List.isPrefixOf ("N".data) p = false →
      classify p = some Gen.g4) ∧
    (∀ st st', processToken p st = Except.ok st' → st'.g2 = st.g2) := by
  constructor
  · intro h5a h5b
    unfold classify
    rw [h5a, h5b]
    simp [hl]
  · intro st st' h
    exact processToken_g2_preserved h (classify_ne_g2 hl)

/-- Witness for the amended claim C10 at the concrete token
"LTEGSM900". -/
theorem claim_C10_witness :
    classify ("LTEGSM900".data) = some Gen.g4 ∧
      (Bands.mk [] [] [] []).g2 = (Bands.mk [] [] [] []).g2 :=
  ⟨(claim_C10_amended ("LTEGSM900".data) (by decide) (by decide)).1
      (by decide) (by decide),
   (claim_C10_amended ("LTEGSM900".data) (by decide) (by decide)).2
      (Bands.mk [] [] [] []) (Bands.mk [] [] [] []) (by rfl)⟩

end ConvertBands
